import Mathlib

/-!
Verification development for the interactive session core of the `lark`
terminal editor: the pane-layout tree engine (`src/editor/layout.rs`),
the tab/pane ownership model (`src/editor/tab.rs`), the chorded modal
input state machine (`src/input/keymap.rs`), and cursor motion
(`src/editor/cursor.rs`, `src/input/handler.rs`).

Embedding conventions:
* `u16` / `usize` values are modelled as `Nat`.  All theorems below stay
  in regimes where the Rust arithmetic neither overflows nor underflows
  (explicit range hypotheses are carried where the claim's domain needs
  them), so `Nat` arithmetic coincides with the machine arithmetic.
* The `f32` split ratio is modelled as `ℚ`; the Rust cast
  `(len as f32 * ratio) as u16` (truncation toward zero, for the
  in-range values that occur here) is modelled as `⌊len * ratio⌋`.
* External collaborators (rope text buffer, highlighter, file browser
  widget) are modelled by their narrow interfaces only, per the spec's
  scope; the `Buffer` model carries just per-line lengths.
* Rust `HashMap<PaneId, Pane>` is modelled as the function
  `Nat → Option Pane`, its natural quotient (insertion order is
  irrelevant to all code under study).
-/

namespace Lark

/-! ## Layout engine (`src/editor/layout.rs`) -/

/-- Model of `SplitDirection` from `layout.rs`. -/
inductive SplitDirection where
  | horizontal
  | vertical
deriving DecidableEq

/-- Model of `Rect` from `layout.rs` (`x`, `y`, `width`, `height` are `u16`). -/
structure Rect where
  x : Nat
  y : Nat
  width : Nat
  height : Nat
deriving DecidableEq

/-- The split point `(len as f32 * ratio) as u16`, modelled as the
floor of the exact rational product. -/
def splitAmount (len : Nat) (ratio : ℚ) : Nat :=
  (⌊(len : ℚ) * ratio⌋).toNat

/-- Model of `Rect::split_horizontal`: top/bottom parts. -/
def Rect.split_horizontal (r : Rect) (ratio : ℚ) : Rect × Rect :=
  let splitY := r.y + splitAmount r.height ratio
  (⟨r.x, r.y, r.width, splitY - r.y⟩,
   ⟨r.x, splitY, r.width, r.height - (splitY - r.y)⟩)

/-- Model of `Rect::split_vertical`: left/right parts. -/
def Rect.split_vertical (r : Rect) (ratio : ℚ) : Rect × Rect :=
  let splitX := r.x + splitAmount r.width ratio
  (⟨r.x, r.y, splitX - r.x, r.height⟩,
   ⟨splitX, r.y, r.width - (splitX - r.x), r.height⟩)

/-- Model of `LayoutNode` from `layout.rs`; pane ids (`PaneId = usize`) are `Nat`. -/
inductive LayoutNode where
  | pane (id : Nat)
  | split (direction : SplitDirection) (ratio : ℚ)
      (first : LayoutNode) (second : LayoutNode)
deriving DecidableEq

/-- Model of `LayoutNode::calculate_rects`. -/
def LayoutNode.calculate_rects : LayoutNode → Rect → List (Nat × Rect)
  | .pane id, area => [(id, area)]
  | .split direction ratio first second, area =>
    let parts :=
      match direction with
      | .horizontal => area.split_horizontal ratio
      | .vertical => area.split_vertical ratio
    first.calculate_rects parts.1 ++ second.calculate_rects parts.2

/-- Model of `LayoutNode::collect_pane_ids` (preorder leaves). -/
def LayoutNode.collect_pane_ids : LayoutNode → List Nat
  | .pane id => [id]
  | .split _ _ first second =>
    first.collect_pane_ids ++ second.collect_pane_ids

/-- Model of `LayoutNode::remove_pane` (sibling promotion). -/
def LayoutNode.remove_pane : LayoutNode → Nat → Option LayoutNode
  | .pane id, targetId => if id = targetId then none else some (.pane id)
  | .split direction ratio first second, targetId =>
    match first.remove_pane targetId, second.remove_pane targetId with
    | none, none => none
    | some node, none => some node
    | none, some node => some node
    | some f, some s => some (.split direction ratio f s)

/-- Model of `Layout` wraps a root node. -/
structure Layout where
  root : LayoutNode
deriving DecidableEq

/-- Model of `Layout::new`. -/
def Layout.new (initialPane : Nat) : Layout := ⟨.pane initialPane⟩

/-- Model of `Layout::calculate_rects`. -/
def Layout.calculate_rects (l : Layout) (area : Rect) : List (Nat × Rect) :=
  l.root.calculate_rects area

/-- Model of `Layout::pane_ids`. -/
def Layout.pane_ids (l : Layout) : List Nat :=
  l.root.collect_pane_ids

/-- Model of `Layout::split_node` (associated function): replace the leaf holding
`targetId` by a ratio-0.5 split of the old and new panes. -/
def Layout.split_node (node : LayoutNode) (targetId newId : Nat)
    (direction : SplitDirection) : LayoutNode :=
  match node with
  | .pane id =>
    if id = targetId then
      .split direction (1 / 2) (.pane id) (.pane newId)
    else
      .pane id
  | .split d ratio first second =>
    .split d ratio (Layout.split_node first targetId newId direction)
      (Layout.split_node second targetId newId direction)

/-- Model of `Layout::split_pane`. -/
def Layout.split_pane (l : Layout) (paneId newPaneId : Nat)
    (direction : SplitDirection) : Layout :=
  ⟨Layout.split_node l.root paneId newPaneId direction⟩

/-- Model of `Layout::add_left_pane`: wrap the root in a new top-level vertical
split with the new pane first. -/
def Layout.add_left_pane (l : Layout) (newPaneId : Nat) (ratio : ℚ) : Layout :=
  ⟨.split .vertical ratio (.pane newPaneId) l.root⟩

/-- Model of `Layout::remove_pane`: on success the new root is installed; when
the whole tree was the removed leaf, the `mem::replace` placeholder
`Pane(0)` is left as the root and `false` is returned. -/
def Layout.remove_pane (l : Layout) (paneId : Nat) : Layout × Bool :=
  match l.root.remove_pane paneId with
  | some newRoot => (⟨newRoot⟩, true)
  | none => (⟨.pane 0⟩, false)

/-! ### Derived notions used to state the layout claims -/

/-- Number of leaves of the tree carrying a given pane id. -/
def LayoutNode.countLeaf : LayoutNode → Nat → Nat
  | .pane id, t => if id = t then 1 else 0
  | .split _ _ first second, t => first.countLeaf t + second.countLeaf t

/-- Replace every leaf carrying id `p` by a leaf carrying id `q`.
Used only to state the amended form of the split/remove round-trip
claim (the shape-preserving residue of removing the *old* id). -/
def LayoutNode.replaceLeaf : LayoutNode → Nat → Nat → LayoutNode
  | .pane id, p, q => if id = p then .pane q else .pane id
  | .split d ratio first second, p, q =>
    .split d ratio (first.replaceLeaf p q) (second.replaceLeaf p q)

/-- All split ratios of the tree lie strictly between 0 and 1. -/
def LayoutNode.ratiosOK : LayoutNode → Bool
  | .pane _ => true
  | .split _ ratio first second =>
    decide (0 < ratio) && decide (ratio < 1) && first.ratiosOK && second.ratiosOK

/-- Trees reachable from a single pane by any sequence of
`split_pane` and (successful) `remove_pane` operations. -/
inductive Reachable : LayoutNode → Prop where
  | base (id : Nat) : Reachable (.pane id)
  | splitStep {n : LayoutNode} (targetId newId : Nat) (d : SplitDirection) :
      Reachable n → Reachable (Layout.split_node n targetId newId d)
  | removeStep {n n' : LayoutNode} (targetId : Nat) :
      Reachable n → n.remove_pane targetId = some n' → Reachable n'

/-- The set of terminal cells covered by a rect. -/
def Rect.cells (r : Rect) : Finset (Nat × Nat) :=
  Finset.Ico r.x (r.x + r.width) ×ˢ Finset.Ico r.y (r.y + r.height)

/-- The area of a rect in cells. -/
def Rect.area (r : Rect) : Nat := r.width * r.height

/-- Union of the cells of a list of pane rects. -/
def cellsUnion (l : List (Nat × Rect)) : Finset (Nat × Nat) :=
  l.foldr (fun p acc => p.2.cells ∪ acc) ∅

/-! ## Cursor and buffer (`src/editor/cursor.rs`, `src/editor/buffer.rs`) -/

/-- Model of `Cursor` from `cursor.rs` (`line`, `col` are `usize`). -/
structure Cursor where
  line : Nat
  col : Nat
deriving DecidableEq

/-- Model of `Cursor::new`. -/
def Cursor.new : Cursor := ⟨0, 0⟩

/-- Model of `Cursor::move_down`: `line = (line + 1).clamp(0, line_count - 1)`.
When `line_count = 0` the `usize` subtraction `line_count - 1`
underflows, which panics under Rust's overflow checks — modelled as
`none`.  Otherwise the clamp is `min (line + 1) (line_count - 1)`. -/
def Cursor.move_down (c : Cursor) (lineCount : Nat) : Option Cursor :=
  if lineCount = 0 then none
  else some ⟨min (c.line + 1) (lineCount - 1), c.col⟩

/-- The rope-backed text buffer is an external collaborator (spec §1,
§6); only the interface the session core consumes is modelled: the
per-line character lengths.  An empty rope reports one (empty) line. -/
structure Buffer where
  lineLens : List Nat
deriving DecidableEq

/-- Model of `Buffer::new` (an empty rope has one empty line). -/
def Buffer.new : Buffer := ⟨[0]⟩

/-- Model of `Buffer::line_count` (`Rope::len_lines`). -/
def Buffer.line_count (b : Buffer) : Nat := b.lineLens.length

/-- Model of `Buffer::line_len` (length of line `idx`, excluding the newline). -/
def Buffer.line_len (b : Buffer) (idx : Nat) : Nat := b.lineLens.getD idx 0

/-! ## Panes and tabs (`src/editor/pane.rs`, `src/editor/tab.rs`) -/

/-- Model of `PaneKind` from `pane.rs`. -/
inductive PaneKind where
  | editor
  | fileBrowser
deriving DecidableEq

/-- Model of `Mode` from `mode.rs`. -/
inductive Mode where
  | normal
  | insert
  | command
  | fileBrowser
  | messageViewer
deriving DecidableEq

/-- Model of `Pane` from `pane.rs`.  The highlighter and language fields are
external collaborators (spec §1) and carry no session-core state, so
they are omitted. -/
structure Pane where
  id : Nat
  kind : PaneKind
  buffer : Buffer
  cursor : Cursor
  scroll_offset : Nat
  scroll_col : Nat
  mode : Mode
deriving DecidableEq

/-- Model of `Pane::new_editor`. -/
def Pane.new_editor (id : Nat) : Pane :=
  ⟨id, .editor, Buffer.new, Cursor.new, 0, 0, .normal⟩

/-- Model of `Pane::new_file_browser`. -/
def Pane.new_file_browser (id : Nat) : Pane :=
  ⟨id, .fileBrowser, Buffer.new, Cursor.new, 0, 0, .fileBrowser⟩

/-- The pane map: `HashMap<PaneId, Pane>` as a function. -/
def PaneMap : Type := Nat → Option Pane

/-- Model of `HashMap::insert`. -/
def insertPane (m : PaneMap) (id : Nat) (p : Pane) : PaneMap :=
  fun k => if k = id then some p else m k

/-- Model of `HashMap::remove`. -/
def erasePane (m : PaneMap) (id : Nat) : PaneMap :=
  fun k => if k = id then none else m k

/-- Model of `Tab` from `tab.rs`.  The `file_browser` widget field is an
external collaborator whose state the session core never reads
(`refresh` mutates only the widget itself), so it is omitted. -/
structure Tab where
  panes : PaneMap
  layout : Layout
  focused_pane_id : Nat
  next_pane_id : Nat
  file_browser_pane_id : Option Nat
  name : String

/-- Model of `Tab::new`. -/
def Tab.new : Tab where
  panes := insertPane (fun _ => none) 0 (Pane.new_editor 0)
  layout := Layout.new 0
  focused_pane_id := 0
  next_pane_id := 1
  file_browser_pane_id := none
  name := "[No Name]"

/-- Model of `Tab::split_vertical`. -/
def Tab.split_vertical (t : Tab) : Tab :=
  let newId := t.next_pane_id
  { t with
    next_pane_id := newId + 1
    panes := insertPane t.panes newId (Pane.new_editor newId)
    layout := t.layout.split_pane t.focused_pane_id newId .vertical }

/-- Model of `Tab::split_horizontal`. -/
def Tab.split_horizontal (t : Tab) : Tab :=
  let newId := t.next_pane_id
  { t with
    next_pane_id := newId + 1
    panes := insertPane t.panes newId (Pane.new_editor newId)
    layout := t.layout.split_pane t.focused_pane_id newId .horizontal }

/-- Model of `Tab::focus_next`: step to the next id in `pane_ids()` order,
wrapping.  The indexing `pane_ids[next_pos]` cannot fail (the index is
taken modulo the length); the default only satisfies the type. -/
def Tab.focus_next (t : Tab) : Tab :=
  match (t.layout.pane_ids).findIdx? (fun id => id = t.focused_pane_id) with
  | some pos =>
    { t with
      focused_pane_id :=
        (t.layout.pane_ids).getD ((pos + 1) % (t.layout.pane_ids).length)
          t.focused_pane_id }
  | none => t

/-- Model of `Tab::get_editor_panes_with_labels`. -/
def Tab.get_editor_panes_with_labels (t : Tab) : List (Char × Nat) :=
  ((t.layout.pane_ids).filter fun id =>
      match t.panes id with
      | some p => p.kind == PaneKind.editor
      | none => false).enum.map
    fun pr => (Char.ofNat (97 + pr.1), pr.2)

/-- Model of `Tab::close_focused_pane`. -/
def Tab.close_focused_pane (t : Tab) : Bool × Tab :=
  let paneIds := t.layout.pane_ids
  if paneIds.length ≤ 1 then (false, t)
  else
    let t1 :=
      if some t.focused_pane_id = t.file_browser_pane_id then
        { t with file_browser_pane_id := none }
      else t
    let closedId := t1.focused_pane_id
    let t2 := t1.focus_next
    (true,
      { t2 with
        layout := (t2.layout.remove_pane closedId).1
        panes := erasePane t2.panes closedId })

/-- Model of `Tab::open_file_browser` (private helper of `toggle_file_browser`);
`file_browser.refresh()` touches only the omitted external widget. -/
def Tab.open_file_browser (t : Tab) : Tab :=
  let newId := t.next_pane_id
  { t with
    next_pane_id := newId + 1
    panes := insertPane t.panes newId (Pane.new_file_browser newId)
    layout := t.layout.add_left_pane newId (1 / 5)
    file_browser_pane_id := some newId
    focused_pane_id := newId }

/-- Model of `Tab::toggle_file_browser`. -/
def Tab.toggle_file_browser (t : Tab) : Tab :=
  match t.file_browser_pane_id with
  | some fbId =>
    let t1 := if t.focused_pane_id = fbId then t.focus_next else t
    { t1 with
      layout := (t1.layout.remove_pane fbId).1
      panes := erasePane t1.panes fbId
      file_browser_pane_id := none }
  | none => t.open_file_browser

/-- The Tab allocator invariant: every live pane id is below the
allocator counter (so a fresh allocation can never collide). -/
def TabInv (t : Tab) : Prop :=
  ∀ id : Nat, (t.panes id).isSome → id < t.next_pane_id

/-! ## Key sequence state machine (`src/input/keymap.rs`) -/

/-- The subset of `crossterm::event::KeyCode` the keymap inspects. -/
inductive KeyCode where
  | char (c : Char)
  | esc
  | enter
  | left
  | right
  | up
  | down
deriving DecidableEq

/-- Model of `crossterm::event::KeyModifiers` as its three relevant bits. -/
structure KeyModifiers where
  ctrl : Bool
  alt : Bool
  shift : Bool
deriving DecidableEq

/-- Model of `KeyModifiers::NONE`. -/
def KeyModifiers.noMods : KeyModifiers := ⟨false, false, false⟩

/-- Model of `Key` from `keymap.rs`. -/
structure Key where
  code : KeyCode
  modifiers : KeyModifiers
deriving DecidableEq

/-- Model of `Key::char`. -/
def Key.char (c : Char) : Key := ⟨.char c, KeyModifiers.noMods⟩

/-- Model of `Key::ctrl`. -/
def Key.ctrl (c : Char) : Key := ⟨.char c, ⟨true, false, false⟩⟩

/-- Model of `Action` from `keymap.rs`. -/
inductive Action where
  | moveLeft
  | moveRight
  | moveUp
  | moveDown
  | moveToLineStart
  | moveToLineEnd
  | moveToFirstLine
  | moveToLastLine
  | moveWordForward
  | moveWordBackward
  | moveWordEnd
  | pageDown
  | pageUp
  | enterInsertMode
  | enterInsertModeAppend
  | enterInsertModeAppendLine
  | enterInsertModeOpenBelow
  | enterInsertModeOpenAbove
  | enterNormalMode
  | enterCommandMode
  | splitVertical
  | splitHorizontal
  | focusLeft
  | focusRight
  | focusUp
  | focusDown
  | focusNext
  | toggleFileBrowser
  | focusFileBrowser
  | leaderKey
  | findFile
  | grep
  | selectPane (c : Char)
  | newTab
  | nextTab
  | prevTab
  | closeTab
  | quit
deriving DecidableEq

/-- Model of `MatchResult` from `keymap.rs` (`Prefix` is rendered `incomplete`). -/
inductive MatchResult where
  | complete (a : Action)
  | incomplete
  | noMatch
deriving DecidableEq

/-- Model of `KeyResult` from `keymap.rs`. -/
inductive KeyResult where
  | action (a : Action) (count : Nat)
  | pending
  | unhandled
  | cancelled
deriving DecidableEq

/-- Model of `KeySequenceState`; `last_key_time` and the timeout are in
milliseconds of a monotone wall clock. -/
structure KeySequenceState where
  pending : List Key
  lastKeyTime : Nat
  timeoutMs : Nat
  waiting_for_pane_select : Bool
  count : Option Nat
deriving DecidableEq

/-- Model of `KeySequenceState::new` at clock time 0. -/
def KeySequenceState.idle : KeySequenceState := ⟨[], 0, 1000, false, none⟩

/-- The second-key table of the Ctrl-W window-command block. -/
def ctrlwSecond (c : KeyCode) : Option Action :=
  match c with
  | .char 'h' | .left => some .focusLeft
  | .char 'j' | .down => some .focusDown
  | .char 'k' | .up => some .focusUp
  | .char 'l' | .right => some .focusRight
  | .char 'w' => some .focusNext
  | .char 'v' => some .splitVertical
  | .char 's' => some .splitHorizontal
  | _ => none

/-- The single-key Ctrl-D/Ctrl-U/Ctrl-C table. -/
def ctrlSingle (c : KeyCode) : Option Action :=
  match c with
  | .char 'd' => some .pageDown
  | .char 'u' => some .pageUp
  | .char 'c' => some .quit
  | _ => none

/-- The second-key table of the leader (space) block. -/
def leaderSecond (c : KeyCode) : Option Action :=
  match c with
  | .char 'f' => some .leaderKey
  | .char 'g' => some .grep
  | .char 'e' => some .focusFileBrowser
  | _ => none

/-- The third-key table of the leader `f` block. -/
def leaderFThird (c : KeyCode) : Option Action :=
  match c with
  | .char 'f' => some .findFile
  | .char 'g' => some .grep
  | _ => none

/-- The second-key table of the `t` tab-command block. -/
def tabSecond (c : KeyCode) : Option Action :=
  match c with
  | .char 't' => some .newTab
  | .char 'n' => some .nextTab
  | .char 'p' => some .prevTab
  | .char 'c' => some .closeTab
  | _ => none

/-- The normal-mode single-key table (matched on the code only). -/
def normalSingle (c : KeyCode) : Option Action :=
  match c with
  | .char 'h' | .left => some .moveLeft
  | .char 'j' | .down => some .moveDown
  | .char 'k' | .up => some .moveUp
  | .char 'l' | .right => some .moveRight
  | .char '0' => some .moveToLineStart
  | .char '$' => some .moveToLineEnd
  | .char 'G' => some .moveToLastLine
  | .char 'w' => some .moveWordForward
  | .char 'b' => some .moveWordBackward
  | .char 'e' => some .moveWordEnd
  | .char 'i' => some .enterInsertMode
  | .char 'a' => some .enterInsertModeAppend
  | .char 'A' => some .enterInsertModeAppendLine
  | .char 'o' => some .enterInsertModeOpenBelow
  | .char 'O' => some .enterInsertModeOpenAbove
  | .char ':' => some .enterCommandMode
  | .esc => some .enterNormalMode
  | _ => none

/-- The insert-mode single-key table. -/
def insertSingle (c : KeyCode) : Option Action :=
  match c with
  | .esc => some .enterNormalMode
  | .left => some .moveLeft
  | .right => some .moveRight
  | .up => some .moveUp
  | .down => some .moveDown
  | _ => none

/-- The Ctrl-W block of `match_sequence`; `none` means the Rust code
falls through past this block. -/
def stepCtrlW (pending : List Key) : Option MatchResult :=
  match pending with
  | [] => none
  | k1 :: rest =>
    if k1 = Key.ctrl 'w' then
      match rest with
      | [] => some .incomplete
      | [k2] =>
        some (match ctrlwSecond k2.code with
          | some a => .complete a
          | none => .noMatch)
      | _ => none
    else none

/-- The Ctrl-G block of `match_sequence`. -/
def stepCtrlG (pending : List Key) : Option MatchResult :=
  if pending = [Key.ctrl 'g'] then some (.complete .toggleFileBrowser) else none

/-- The Ctrl-D/U/C block of `match_sequence` (any key whose modifier
set contains CONTROL). -/
def stepCtrlSingle (pending : List Key) : Option MatchResult :=
  match pending with
  | [k1] =>
    if k1.modifiers.ctrl then (ctrlSingle k1.code).map .complete else none
  | _ => none

/-- The leader (space) block of `match_sequence`, normal mode only. -/
def stepLeader (pending : List Key) (mode : String) : Option MatchResult :=
  match pending with
  | [] => none
  | k1 :: rest =>
    if k1 = Key.char ' ' ∧ mode = "normal" then
      match rest with
      | [] => some .incomplete
      | [k2] =>
        match leaderSecond k2.code with
        | some .leaderKey => some .incomplete
        | some a => some (.complete a)
        | none => none
      | [k2, k3] =>
        if k2 = Key.char 'f' then
          some (match leaderFThird k3.code with
            | some a => .complete a
            | none => .noMatch)
        else none
      | _ => none
    else none

/-- The normal-mode blocks of `match_sequence` (`gg`, tab commands,
single keys). -/
def stepNormal (pending : List Key) (mode : String) : Option MatchResult :=
  if mode = "normal" then
    match pending with
    | [] => none
    | k1 :: rest =>
      if k1 = Key.char 'g' then
        match rest with
        | [] => some .incomplete
        | [k2] =>
          if k2 = Key.char 'g' then some (.complete .moveToFirstLine)
          else some .noMatch
        | _ => some .noMatch
      else if k1 = Key.char 't' then
        match rest with
        | [] => some .incomplete
        | [k2] =>
          some (match tabSecond k2.code with
            | some a => .complete a
            | none => .noMatch)
        | _ => none
      else
        match rest with
        | [] =>
          some (match normalSingle k1.code with
            | some a => .complete a
            | none => .noMatch)
        | _ => none
  else none

/-- The insert-mode block of `match_sequence`. -/
def stepInsert (pending : List Key) (mode : String) : Option MatchResult :=
  if mode = "insert" then
    match pending with
    | [k1] =>
      some (match insertSingle k1.code with
        | some a => .complete a
        | none => .noMatch)
    | _ => none
  else none

/-- Model of `KeySequenceState::match_sequence`: the blocks in source order,
with `NoMatch` as the fall-through default. -/
def match_sequence (pending : List Key) (mode : String) : MatchResult :=
  ((stepCtrlW pending <|> stepCtrlG pending <|> stepCtrlSingle pending <|>
    stepLeader pending mode <|> stepNormal pending mode <|>
    stepInsert pending mode)).getD .noMatch

/-- Model of `c.is_ascii_lowercase()`. -/
def isAsciiLower (c : Char) : Bool := 97 ≤ c.toNat && c.toNat ≤ 122

/-- The count-prefix test: a bare ASCII digit with no modifiers,
yielding its value. -/
def digitOf (key : Key) : Option Nat :=
  match key.code with
  | .char c =>
    if (48 ≤ c.toNat && c.toNat ≤ 57) = true ∧ key.modifiers = KeyModifiers.noMods then
      some (c.toNat - 48)
    else none
  | _ => none

/-- Model of `KeySequenceState::check_timeout`. -/
def KeySequenceState.check_timeout (s : KeySequenceState) (now : Nat) :
    KeySequenceState :=
  if now - s.lastKeyTime > s.timeoutMs then
    { s with pending := [], count := none }
  else s

/-- Model of `KeySequenceState::process_key`, with the wall clock passed
explicitly (`now` plays both `elapsed()` readings of the call). -/
def KeySequenceState.process_key (s0 : KeySequenceState) (now : Nat)
    (key : Key) (mode : String) : KeyResult × KeySequenceState :=
  let s' := s0.check_timeout now
  let s : KeySequenceState := { s' with lastKeyTime := now }
  if s.waiting_for_pane_select then
    match key.code with
    | .char c =>
      if isAsciiLower c then
        (.action (.selectPane c) 1, { s with waiting_for_pane_select := false })
      else (.pending, s)
    | .esc => (.cancelled, { s with waiting_for_pane_select := false, count := none })
    | _ => (.pending, s)
  else
    let afterDigit : KeyResult × KeySequenceState :=
      let pending1 := s.pending ++ [key]
      match match_sequence pending1 mode with
      | .complete a =>
        (.action a (s.count.getD 1), { s with pending := [], count := none })
      | .incomplete => (.pending, { s with pending := pending1 })
      | .noMatch =>
        if pending1.length > 1 then
          match match_sequence [key] mode with
          | .complete a =>
            (.action a (s.count.getD 1), { s with pending := [], count := none })
          | .incomplete => (.pending, { s with pending := [key] })
          | .noMatch => (.unhandled, { s with pending := [], count := none })
        else (.unhandled, { s with pending := [], count := none })
    match digitOf key with
    | some d =>
      if d ≠ 0 ∨ s.count.isSome then
        (.pending, { s with count := some ((s.count.getD 0) * 10 + d) })
      else afterDigit
    | none => afterDigit

/-! ## Dispatcher fragment (`src/input/handler.rs`) -/

/-- One iteration of `execute_action` for `Action::MoveDown`: the
dispatcher reads the focused pane's buffer line count, moves the
cursor down, then clamps the column to the new line's length.
Cursor underflow (see `Cursor.move_down`) propagates as `none`. -/
def execMoveDown (p : Pane) : Option Pane :=
  match p.cursor.move_down p.buffer.line_count with
  | none => none
  | some c1 =>
    let lineLen := p.buffer.line_len c1.line
    let c2 := if c1.col > lineLen then { c1 with col := lineLen } else c1
    some { p with cursor := c2 }

/-! ## Layout tiling (claim C1) -/

theorem splitAmount_le (len : Nat) {ρ : ℚ} (h1 : ρ ≤ 1) :
    splitAmount len ρ ≤ len := by
  unfold splitAmount
  rw [Int.toNat_le]
  calc ⌊(len : ℚ) * ρ⌋ ≤ ⌊(len : ℚ)⌋ :=
        Int.floor_le_floor (mul_le_of_le_one_right (by positivity) h1)
    _ = (len : ℤ) := Int.floor_natCast len

theorem split_horizontal_eq (r : Rect) (ρ : ℚ) :
    r.split_horizontal ρ =
      (⟨r.x, r.y, r.width, splitAmount r.height ρ⟩,
       ⟨r.x, r.y + splitAmount r.height ρ, r.width,
        r.height - splitAmount r.height ρ⟩) := by
  simp [Rect.split_horizontal]

theorem split_vertical_eq (r : Rect) (ρ : ℚ) :
    r.split_vertical ρ =
      (⟨r.x, r.y, splitAmount r.width ρ, r.height⟩,
       ⟨r.x + splitAmount r.width ρ, r.y,
        r.width - splitAmount r.width ρ, r.height⟩) := by
  simp [Rect.split_vertical]

theorem split_horizontal_cells (r : Rect) {ρ : ℚ} (h1 : ρ ≤ 1) :
    (r.split_horizontal ρ).1.cells ∪ (r.split_horizontal ρ).2.cells = r.cells
    ∧ (r.split_horizontal ρ).1.cells ∩ (r.split_horizontal ρ).2.cells = ∅
    ∧ (r.split_horizontal ρ).1.area + (r.split_horizontal ρ).2.area = r.area := by
  have hk : splitAmount r.height ρ ≤ r.height := splitAmount_le r.height h1
  rw [split_horizontal_eq]
  refine ⟨?_, ?_, ?_⟩
  · ext ⟨i, j⟩
    simp only [Rect.cells, Finset.mem_union, Finset.mem_product, Finset.mem_Ico]
    omega
  · ext ⟨i, j⟩
    simp only [Rect.cells, Finset.mem_inter, Finset.mem_product, Finset.mem_Ico,
      Finset.not_mem_empty, iff_false, not_and]
    omega
  · show r.width * splitAmount r.height ρ
        + r.width * (r.height - splitAmount r.height ρ) = r.width * r.height
    rw [← Nat.mul_add, Nat.add_sub_cancel' hk]

theorem split_vertical_cells (r : Rect) {ρ : ℚ} (h1 : ρ ≤ 1) :
    (r.split_vertical ρ).1.cells ∪ (r.split_vertical ρ).2.cells = r.cells
    ∧ (r.split_vertical ρ).1.cells ∩ (r.split_vertical ρ).2.cells = ∅
    ∧ (r.split_vertical ρ).1.area + (r.split_vertical ρ).2.area = r.area := by
  have hk : splitAmount r.width ρ ≤ r.width := splitAmount_le r.width h1
  rw [split_vertical_eq]
  refine ⟨?_, ?_, ?_⟩
  · ext ⟨i, j⟩
    simp only [Rect.cells, Finset.mem_union, Finset.mem_product, Finset.mem_Ico]
    omega
  · ext ⟨i, j⟩
    simp only [Rect.cells, Finset.mem_inter, Finset.mem_product, Finset.mem_Ico,
      Finset.not_mem_empty, iff_false, not_and]
    omega
  · show splitAmount r.width ρ * r.height
        + (r.width - splitAmount r.width ρ) * r.height = r.width * r.height
    rw [← Nat.add_mul, Nat.add_sub_cancel' hk]

theorem cellsUnion_append (l1 l2 : List (Nat × Rect)) :
    cellsUnion (l1 ++ l2) = cellsUnion l1 ∪ cellsUnion l2 := by
  induction l1 with
  | nil => simp [cellsUnion]
  | cons p l ih =>
    show p.2.cells ∪ cellsUnion (l ++ l2) = p.2.cells ∪ cellsUnion l ∪ cellsUnion l2
    rw [ih, Finset.union_assoc]

theorem cells_subset_cellsUnion {p : Nat × Rect} {l : List (Nat × Rect)}
    (hp : p ∈ l) : p.2.cells ⊆ cellsUnion l := by
  induction l with
  | nil => cases hp
  | cons q l ih =>
    rcases List.mem_cons.mp hp with h | h
    · subst h; exact Finset.subset_union_left
    · exact (ih h).trans Finset.subset_union_right

theorem ratiosOK_split {d : SplitDirection} {ρ : ℚ} {f s : LayoutNode}
    (h : (LayoutNode.split d ρ f s).ratiosOK = true) :
    0 < ρ ∧ ρ < 1 ∧ f.ratiosOK = true ∧ s.ratiosOK = true := by
  simpa [LayoutNode.ratiosOK, and_assoc] using h

theorem tiling_aux :
    ∀ n : LayoutNode, n.ratiosOK = true → ∀ area : Rect,
      ((n.calculate_rects area).map Prod.fst = n.collect_pane_ids)
      ∧ List.Pairwise (fun a b => a.2.cells ∩ b.2.cells = ∅) (n.calculate_rects area)
      ∧ cellsUnion (n.calculate_rects area) = area.cells
      ∧ ((n.calculate_rects area).map fun p => p.2.area).sum = area.area := by
  intro n
  induction n with
  | pane id =>
    intro _ area
    refine ⟨rfl, ?_, ?_, ?_⟩ <;>
      simp [LayoutNode.calculate_rects, cellsUnion]
  | split d ρ f s ihf ihs =>
    intro hok area
    obtain ⟨h0, h1, hf, hs⟩ := ratiosOK_split hok
    cases d with
    | horizontal =>
      have hpart := split_horizontal_cells area h1.le
      obtain ⟨m1, pw1, u1, sum1⟩ := ihf hf (area.split_horizontal ρ).1
      obtain ⟨m2, pw2, u2, sum2⟩ := ihs hs (area.split_horizontal ρ).2
      simp only [LayoutNode.calculate_rects, LayoutNode.collect_pane_ids]
      refine ⟨?_, ?_, ?_, ?_⟩
      · rw [List.map_append, m1, m2]
      · refine List.pairwise_append.mpr ⟨pw1, pw2, ?_⟩
        intro a ha b hb
        have hA : a.2.cells ⊆ (area.split_horizontal ρ).1.cells :=
          u1 ▸ cells_subset_cellsUnion ha
        have hB : b.2.cells ⊆ (area.split_horizontal ρ).2.cells :=
          u2 ▸ cells_subset_cellsUnion hb
        have hsub := Finset.inter_subset_inter hA hB
        rw [hpart.2.1] at hsub
        exact Finset.subset_empty.mp hsub
      · rw [cellsUnion_append, u1, u2, hpart.1]
      · rw [List.map_append, List.sum_append, sum1, sum2, hpart.2.2]
    | vertical =>
      have hpart := split_vertical_cells area h1.le
      obtain ⟨m1, pw1, u1, sum1⟩ := ihf hf (area.split_vertical ρ).1
      obtain ⟨m2, pw2, u2, sum2⟩ := ihs hs (area.split_vertical ρ).2
      simp only [LayoutNode.calculate_rects, LayoutNode.collect_pane_ids]
      refine ⟨?_, ?_, ?_, ?_⟩
      · rw [List.map_append, m1, m2]
      · refine List.pairwise_append.mpr ⟨pw1, pw2, ?_⟩
        intro a ha b hb
        have hA : a.2.cells ⊆ (area.split_vertical ρ).1.cells :=
          u1 ▸ cells_subset_cellsUnion ha
        have hB : b.2.cells ⊆ (area.split_vertical ρ).2.cells :=
          u2 ▸ cells_subset_cellsUnion hb
        have hsub := Finset.inter_subset_inter hA hB
        rw [hpart.2.1] at hsub
        exact Finset.subset_empty.mp hsub
      · rw [cellsUnion_append, u1, u2, hpart.1]
      · rw [List.map_append, List.sum_append, sum1, sum2, hpart.2.2]

theorem split_node_ratiosOK {n : LayoutNode} (targetId newId : Nat)
    (d : SplitDirection) (h : n.ratiosOK = true) :
    (Layout.split_node n targetId newId d).ratiosOK = true := by
  induction n with
  | pane id =>
    by_cases hid : id = targetId
    · simp only [Layout.split_node, if_pos hid, LayoutNode.ratiosOK]
      norm_num
    · simpa only [Layout.split_node, if_neg hid] using h
  | split d' ρ f s ihf ihs =>
    obtain ⟨h0, h1, hf, hs⟩ := ratiosOK_split h
    simp only [Layout.split_node, LayoutNode.ratiosOK, Bool.and_eq_true,
      decide_eq_true_eq]
    exact ⟨⟨⟨h0, h1⟩, ihf hf⟩, ihs hs⟩

theorem remove_pane_ratiosOK {n n' : LayoutNode} (targetId : Nat)
    (h : n.ratiosOK = true) (hr : n.remove_pane targetId = some n') :
    n'.ratiosOK = true := by
  induction n generalizing n' with
  | pane id =>
    by_cases hid : id = targetId
    · simp [LayoutNode.remove_pane, hid] at hr
    · simp only [LayoutNode.remove_pane, if_neg hid, Option.some.injEq] at hr
      exact hr ▸ h
  | split d ρ f s ihf ihs =>
    obtain ⟨h0, h1, hf, hs⟩ := ratiosOK_split h
    simp only [LayoutNode.remove_pane] at hr
    rcases hf1 : f.remove_pane targetId with _ | f' <;>
      rcases hs1 : s.remove_pane targetId with _ | s' <;>
        rw [hf1, hs1] at hr <;> simp only [Option.some.injEq] at hr
    · exact absurd hr (by simp)
    · exact hr ▸ ihs hs hs1
    · exact hr ▸ ihf hf hf1
    · subst hr
      simp only [LayoutNode.ratiosOK, Bool.and_eq_true, decide_eq_true_eq]
      exact ⟨⟨⟨h0, h1⟩, ihf hf hf1⟩, ihs hs hs1⟩

theorem reachable_ratiosOK {n : LayoutNode} (h : Reachable n) :
    n.ratiosOK = true := by
  induction h with
  | base id => rfl
  | splitStep targetId newId d _ ih => exact split_node_ratiosOK targetId newId d ih
  | removeStep targetId _ hr ih => exact remove_pane_ratiosOK targetId ih hr

/-- C1.  For every layout tree built from a single pane by any sequence
of `split_pane` / `remove_pane` operations (all such trees have ratios
in (0,1)), and every screen `area` (with `u16`-range bounds, under
which the `Nat` model coincides with the Rust `u16` arithmetic),
`calculate_rects` returns one rect per leaf pane, in preorder leaf
order, whose cell sets are pairwise disjoint, cover `area` exactly,
and whose areas sum to `area`'s area. -/
theorem calculate_rects_exact_tiling (n : LayoutNode) (area : Rect)
    (hn : Reachable n)
    (_hx : area.x + area.width ≤ 65535) (_hy : area.y + area.height ≤ 65535) :
    ((n.calculate_rects area).map Prod.fst = n.collect_pane_ids)
    ∧ List.Pairwise (fun a b => a.2.cells ∩ b.2.cells = ∅) (n.calculate_rects area)
    ∧ cellsUnion (n.calculate_rects area) = area.cells
    ∧ ((n.calculate_rects area).map fun p => p.2.area).sum = area.area :=
  tiling_aux n (reachable_ratiosOK hn) area

/-- Witness for C1 at the tree `split(pane 0, pane 1)` obtained by one
`split_pane`, and the concrete area `8 × 4` at the origin. -/
theorem calculate_rects_exact_tiling_witness :
    Reachable (Layout.split_node (.pane 0) 0 1 .vertical)
    ∧ (0 : Nat) + 8 ≤ 65535 ∧ (0 : Nat) + 4 ≤ 65535
    ∧ (((Layout.split_node (.pane 0) 0 1 .vertical).calculate_rects
          ⟨0, 0, 8, 4⟩).map Prod.fst
        = (Layout.split_node (.pane 0) 0 1 .vertical).collect_pane_ids)
    ∧ List.Pairwise (fun a b => a.2.cells ∩ b.2.cells = ∅)
        ((Layout.split_node (.pane 0) 0 1 .vertical).calculate_rects ⟨0, 0, 8, 4⟩)
    ∧ cellsUnion
        ((Layout.split_node (.pane 0) 0 1 .vertical).calculate_rects ⟨0, 0, 8, 4⟩)
        = (Rect.mk 0 0 8 4).cells
    ∧ (((Layout.split_node (.pane 0) 0 1 .vertical).calculate_rects
          ⟨0, 0, 8, 4⟩).map fun p => p.2.area).sum = (Rect.mk 0 0 8 4).area :=
  ⟨Reachable.splitStep 0 1 .vertical (Reachable.base 0),
   by decide, by decide,
   (calculate_rects_exact_tiling _ _
      (Reachable.splitStep 0 1 .vertical (Reachable.base 0))
      (by decide) (by decide)).1,
   (calculate_rects_exact_tiling _ _
      (Reachable.splitStep 0 1 .vertical (Reachable.base 0))
      (by decide) (by decide)).2.1,
   (calculate_rects_exact_tiling _ _
      (Reachable.splitStep 0 1 .vertical (Reachable.base 0))
      (by decide) (by decide)).2.2.1,
   (calculate_rects_exact_tiling _ _
      (Reachable.splitStep 0 1 .vertical (Reachable.base 0))
      (by decide) (by decide)).2.2.2⟩

/-! ## Split / remove round-trip (claim C2) -/

theorem remove_pane_not_present {n : LayoutNode} {t : Nat}
    (h : n.countLeaf t = 0) : n.remove_pane t = some n := by
  induction n with
  | pane id =>
    have hid : id ≠ t := by
      intro he
      simp [LayoutNode.countLeaf, he] at h
    simp [LayoutNode.remove_pane, hid]
  | split d ρ f s ihf ihs =>
    have hft : f.countLeaf t = 0 := by
      have := h; simp [LayoutNode.countLeaf] at this; omega
    have hst : s.countLeaf t = 0 := by
      have := h; simp [LayoutNode.countLeaf] at this; omega
    simp [LayoutNode.remove_pane, ihf hft, ihs hst]

theorem split_node_not_present {n : LayoutNode} {t : Nat} (q : Nat)
    (d : SplitDirection) (h : n.countLeaf t = 0) :
    Layout.split_node n t q d = n := by
  induction n with
  | pane id =>
    have hid : id ≠ t := by
      intro he
      simp [LayoutNode.countLeaf, he] at h
    simp [Layout.split_node, hid]
  | split d' ρ f s ihf ihs =>
    have hft : f.countLeaf t = 0 := by
      have := h; simp [LayoutNode.countLeaf] at this; omega
    have hst : s.countLeaf t = 0 := by
      have := h; simp [LayoutNode.countLeaf] at this; omega
    simp [Layout.split_node, ihf hft, ihs hst]

theorem replaceLeaf_not_present {n : LayoutNode} {p : Nat} (q : Nat)
    (h : n.countLeaf p = 0) : n.replaceLeaf p q = n := by
  induction n with
  | pane id =>
    have hid : id ≠ p := by
      intro he
      simp [LayoutNode.countLeaf, he] at h
    simp [LayoutNode.replaceLeaf, hid]
  | split d' ρ f s ihf ihs =>
    have hfp : f.countLeaf p = 0 := by
      have := h; simp [LayoutNode.countLeaf] at this; omega
    have hsp : s.countLeaf p = 0 := by
      have := h; simp [LayoutNode.countLeaf] at this; omega
    simp [LayoutNode.replaceLeaf, ihf hfp, ihs hsp]

/-- C2 counterexample.  The claim says removing *either* child of a
fresh split restores the pre-split tree.  Splitting the tree `pane 0`
and removing the *old* id 0 promotes the new pane: the result is
`pane 1`, not the original `pane 0`. -/
theorem c2_remove_old_id_counterexample :
    (Layout.split_node (.pane 0) 0 1 .vertical).remove_pane 0
      = some (LayoutNode.pane 1)
    ∧ some (LayoutNode.pane 1) ≠ some (LayoutNode.pane 0) := by
  constructor
  · rfl
  · decide

/-- C2 (amended).  If `p` occurs exactly once as a leaf of `T` and `q`
does not occur in `T`, then after `split_node T p q d`: removing the
*new* id `q` restores `T` exactly, while removing the *old* id `p`
yields `T` with the leaf `p` replaced by a leaf `q` (same shape,
directions and ratios) — not `T` itself. -/
theorem split_then_remove_round_trip (n : LayoutNode) (p q : Nat)
    (d : SplitDirection) (hp : n.countLeaf p = 1) (hq : n.countLeaf q = 0) :
    (Layout.split_node n p q d).remove_pane q = some n
    ∧ (Layout.split_node n p q d).remove_pane p = some (n.replaceLeaf p q) := by
  induction n with
  | pane id =>
    have hid : id = p := by
      by_cases h : id = p
      · exact h
      · simp [LayoutNode.countLeaf, h] at hp
    subst hid
    have hpq : id ≠ q := by
      intro he
      simp [LayoutNode.countLeaf, he] at hq
    constructor
    · simp [Layout.split_node, LayoutNode.remove_pane, hpq]
    · simp [Layout.split_node, LayoutNode.remove_pane, LayoutNode.replaceLeaf,
        hpq.symm]
  | split d' ρ f s ihf ihs =>
    have hq1 : f.countLeaf q = 0 := by
      have := hq; simp [LayoutNode.countLeaf] at this; omega
    have hq2 : s.countLeaf q = 0 := by
      have := hq; simp [LayoutNode.countLeaf] at this; omega
    have hsum : f.countLeaf p + s.countLeaf p = 1 := by
      simpa [LayoutNode.countLeaf] using hp
    rcases Nat.eq_zero_or_pos (f.countLeaf p) with hf0 | hfpos
    · -- the unique `p` leaf is in `s`
      have hs1 : s.countLeaf p = 1 := by omega
      obtain ⟨ihq, ihp⟩ := ihs hs1 hq2
      have hfid : Layout.split_node f p q d = f := split_node_not_present q d hf0
      constructor
      · simp [Layout.split_node, LayoutNode.remove_pane, hfid,
          remove_pane_not_present hq1, ihq]
      · simp [Layout.split_node, LayoutNode.remove_pane, hfid,
          remove_pane_not_present hf0, ihp, LayoutNode.replaceLeaf,
          replaceLeaf_not_present q hf0]
    · -- the unique `p` leaf is in `f`
      have hf1 : f.countLeaf p = 1 := by omega
      have hs0 : s.countLeaf p = 0 := by omega
      obtain ⟨ihq, ihp⟩ := ihf hf1 hq1
      have hsid : Layout.split_node s p q d = s := split_node_not_present q d hs0
      constructor
      · simp [Layout.split_node, LayoutNode.remove_pane, hsid,
          remove_pane_not_present hq2, ihq]
      · simp [Layout.split_node, LayoutNode.remove_pane, hsid,
          remove_pane_not_present hs0, ihp, LayoutNode.replaceLeaf,
          replaceLeaf_not_present q hs0]

/-- Witness for the amended C2 at `T = pane 5`, `p = 5`, `q = 7`. -/
theorem split_then_remove_round_trip_witness :
    (LayoutNode.pane 5).countLeaf 5 = 1
    ∧ (LayoutNode.pane 5).countLeaf 7 = 0
    ∧ (Layout.split_node (.pane 5) 5 7 .horizontal).remove_pane 7
        = some (LayoutNode.pane 5)
    ∧ (Layout.split_node (.pane 5) 5 7 .horizontal).remove_pane 5
        = some ((LayoutNode.pane 5).replaceLeaf 5 7) :=
  ⟨by decide, by decide,
   (split_then_remove_round_trip (.pane 5) 5 7 .horizontal
      (by decide) (by decide)).1,
   (split_then_remove_round_trip (.pane 5) 5 7 .horizontal
      (by decide) (by decide)).2⟩

/-! ## Count-prefix digit semantics (claim C3) -/

/-- C3.  From the fresh `Idle` state in normal mode with no stale
timeout: `"3" "j"` yields `Action(MoveDown, 3)` (the digit reporting
`Pending`); a leading `"0"` with no accumulated count is itself the
move-to-line-start command with count 1; `"1" "0" "j"` accumulates the
base-10 count 10 and yields `Action(MoveDown, 10)`. -/
theorem count_prefix_digit_semantics :
    ((KeySequenceState.idle.process_key 0 (Key.char '3') "normal").1
        = .pending
      ∧ ((KeySequenceState.idle.process_key 0 (Key.char '3') "normal").2.process_key
          0 (Key.char 'j') "normal").1 = .action .moveDown 3)
    ∧ (KeySequenceState.idle.process_key 0 (Key.char '0') "normal").1
        = .action .moveToLineStart 1
    ∧ (let s1 := (KeySequenceState.idle.process_key 0 (Key.char '1') "normal").2
       let s2 := (s1.process_key 0 (Key.char '0') "normal").2
       (s2.process_key 0 (Key.char 'j') "normal").1 = .action .moveDown 10) := by
  decide

/-! ## Ctrl-W followed by an unrecognized key (claim C4) -/

/-- C4 counterexample.  `'i'` is not one of the recognized Ctrl-W
continuations, yet `Ctrl-W` then `'i'` in normal mode does *not*
report `Unhandled`: the no-match retry re-matches `'i'` alone and
yields `Action(EnterInsertMode, 1)`. -/
theorem ctrlw_unrecognized_counterexample :
    ((KeySequenceState.idle.process_key 0 (Key.ctrl 'w') "normal").2.process_key
        0 (Key.char 'i') "normal").1 = .action .enterInsertMode 1
    ∧ KeyResult.action .enterInsertMode 1 ≠ .unhandled := by
  decide

/-- C4 (amended).  After `Ctrl-W`, a key `k` that is not a recognized
continuation, is not a bare digit, and does not itself match as a
fresh single key in normal mode (the no-match retry), resets the state
to `Idle` (empty pending buffer, no count) and reports `Unhandled`. -/
theorem ctrlw_unmatched_resets_idle (k : Key)
    (hcont : ctrlwSecond k.code = none)
    (hdig : digitOf k = none)
    (hretry : match_sequence [k] "normal" = .noMatch) :
    (KeySequenceState.idle.process_key 0 (Key.ctrl 'w') "normal").2.process_key
        0 k "normal"
      = (.unhandled, ⟨[], 0, 1000, false, none⟩) := by
  have h1 : stepCtrlW [Key.ctrl 'w', k] = some .noMatch := by
    simp [stepCtrlW, hcont]
  have hms : match_sequence [Key.ctrl 'w', k] "normal" = .noMatch := by
    simp [match_sequence, h1]
  have hs1 : (KeySequenceState.idle.process_key 0 (Key.ctrl 'w') "normal").2
      = ⟨[Key.ctrl 'w'], 0, 1000, false, none⟩ := rfl
  rw [hs1]
  simp [KeySequenceState.process_key, KeySequenceState.check_timeout,
    hdig, hms, hretry]

/-- Witness for the amended C4 at the concrete key `'q'`. -/
theorem ctrlw_unmatched_resets_idle_witness :
    ctrlwSecond (Key.char 'q').code = none
    ∧ digitOf (Key.char 'q') = none
    ∧ match_sequence [Key.char 'q'] "normal" = .noMatch
    ∧ (KeySequenceState.idle.process_key 0 (Key.ctrl 'w') "normal").2.process_key
        0 (Key.char 'q') "normal"
      = (.unhandled, ⟨[], 0, 1000, false, none⟩) :=
  ⟨by decide, by decide, by decide,
   ctrlw_unmatched_resets_idle (Key.char 'q') (by decide) (by decide) (by decide)⟩

/-! ## Closing the last pane is a no-op (claim C5) -/

/-- C5.  On a Tab whose layout holds at most one pane,
`close_focused_pane` returns `false` and the whole Tab — pane map,
layout, focused pane id, file-browser pane id, name, allocator — is
unchanged. -/
theorem close_focused_pane_single_noop (t : Tab)
    (h : t.layout.pane_ids.length ≤ 1) :
    t.close_focused_pane = (false, t) := by
  simp [Tab.close_focused_pane, h]

/-- Witness for C5 at the freshly created Tab (one editor pane). -/
theorem close_focused_pane_single_noop_witness :
    Tab.new.layout.pane_ids.length ≤ 1
    ∧ Tab.new.close_focused_pane = (false, Tab.new) :=
  ⟨by decide, close_focused_pane_single_noop Tab.new (by decide)⟩

/-! ## Stale-timeout reset (claim C6) -/

/-- C6.  If the previous key is more than the 1000 ms timeout old,
`process_key` on any key behaves exactly (same result, same final
state) as processing that key from the fresh `Idle` state with no
pending chord and no count. -/
theorem stale_timeout_fresh_equiv (pending : List Key) (last : Nat)
    (count : Option Nat) (now : Nat) (key : Key) (mode : String)
    (h : now - last > 1000) :
    KeySequenceState.process_key ⟨pending, last, 1000, false, count⟩ now key mode
      = KeySequenceState.process_key ⟨[], now, 1000, false, none⟩ now key mode := by
  have h1 : KeySequenceState.check_timeout ⟨pending, last, 1000, false, count⟩ now
      = ⟨[], last, 1000, false, none⟩ := by
    simp [KeySequenceState.check_timeout, h]
  have h2 : KeySequenceState.check_timeout ⟨[], now, 1000, false, none⟩ now
      = ⟨[], now, 1000, false, none⟩ := by
    simp [KeySequenceState.check_timeout]
  simp only [KeySequenceState.process_key, h1, h2]

/-- Witness for C6: a stale pending `'g'` chord with count 5, 2000 ms
later, followed by `'j'`. -/
theorem stale_timeout_fresh_equiv_witness :
    2000 - 0 > 1000
    ∧ KeySequenceState.process_key ⟨[Key.char 'g'], 0, 1000, false, some 5⟩
        2000 (Key.char 'j') "normal"
      = KeySequenceState.process_key ⟨[], 2000, 1000, false, none⟩
        2000 (Key.char 'j') "normal" :=
  ⟨by decide,
   stale_timeout_fresh_equiv [Key.char 'g'] 0 (some 5) 2000 (Key.char 'j')
     "normal" (by decide)⟩

/-! ## Split frame conditions (claim C7) -/

theorem erasePane_insertPane_fresh (m : PaneMap) (idv : Nat) (p : Pane)
    (h : m idv = none) : erasePane (insertPane m idv p) idv = m := by
  funext k
  by_cases hk : k = idv
  · subst hk; simp [erasePane, h]
  · simp [erasePane, insertPane, hk]

/-- C7.  `split_vertical`/`split_horizontal` keep the focus on the
original pane and touch nothing else: the file-browser reference, the
name and all existing panes are unchanged (erasing the new id from the
new pane map restores the old map exactly), the allocator advances by
one, the new id maps to a fresh editor pane, and the layout change is
exactly `split_pane` at the focused pane.  (Stated on the Tab model;
the pane-level `Workspace` methods are line-identical code.) -/
theorem split_preserves_focus_and_frame (t : Tab)
    (hfresh : t.panes t.next_pane_id = none) :
    (t.split_vertical.focused_pane_id = t.focused_pane_id
      ∧ t.split_vertical.file_browser_pane_id = t.file_browser_pane_id
      ∧ t.split_vertical.name = t.name
      ∧ t.split_vertical.next_pane_id = t.next_pane_id + 1
      ∧ t.split_vertical.panes t.next_pane_id
          = some (Pane.new_editor t.next_pane_id)
      ∧ erasePane t.split_vertical.panes t.next_pane_id = t.panes
      ∧ t.split_vertical.layout
          = t.layout.split_pane t.focused_pane_id t.next_pane_id .vertical)
    ∧ (t.split_horizontal.focused_pane_id = t.focused_pane_id
      ∧ t.split_horizontal.file_browser_pane_id = t.file_browser_pane_id
      ∧ t.split_horizontal.name = t.name
      ∧ t.split_horizontal.next_pane_id = t.next_pane_id + 1
      ∧ t.split_horizontal.panes t.next_pane_id
          = some (Pane.new_editor t.next_pane_id)
      ∧ erasePane t.split_horizontal.panes t.next_pane_id = t.panes
      ∧ t.split_horizontal.layout
          = t.layout.split_pane t.focused_pane_id t.next_pane_id .horizontal) :=
  ⟨⟨rfl, rfl, rfl, rfl, by simp [Tab.split_vertical, insertPane],
    erasePane_insertPane_fresh t.panes t.next_pane_id _ hfresh, rfl⟩,
   ⟨rfl, rfl, rfl, rfl, by simp [Tab.split_horizontal, insertPane],
    erasePane_insertPane_fresh t.panes t.next_pane_id _ hfresh, rfl⟩⟩

/-- Witness for C7 at the freshly created Tab. -/
theorem split_preserves_focus_and_frame_witness :
    Tab.new.panes Tab.new.next_pane_id = none
    ∧ Tab.new.split_vertical.focused_pane_id = Tab.new.focused_pane_id
    ∧ Tab.new.split_vertical.next_pane_id = Tab.new.next_pane_id + 1
    ∧ erasePane Tab.new.split_vertical.panes Tab.new.next_pane_id = Tab.new.panes
    ∧ Tab.new.split_horizontal.focused_pane_id = Tab.new.focused_pane_id :=
  ⟨rfl,
   (split_preserves_focus_and_frame Tab.new rfl).1.1,
   (split_preserves_focus_and_frame Tab.new rfl).1.2.2.2.1,
   (split_preserves_focus_and_frame Tab.new rfl).1.2.2.2.2.2.1,
   (split_preserves_focus_and_frame Tab.new rfl).2.1⟩

/-! ## Pane labels after a split (claim C8) -/

/-- C8.  On a Tab whose layout is the single editor pane
`focused_pane_id` (with a fresh allocator), `split_vertical` followed
by `get_editor_panes_with_labels` yields exactly
`[('a', old pane), ('b', new pane)]`: labels are assigned
alphabetically in preorder with the original pane first. -/
theorem split_vertical_labels_ab (t : Tab) (pn : Pane)
    (hroot : t.layout.root = .pane t.focused_pane_id)
    (hpane : t.panes t.focused_pane_id = some pn)
    (hkind : pn.kind = .editor)
    (hne : t.focused_pane_id ≠ t.next_pane_id) :
    t.split_vertical.get_editor_panes_with_labels
      = [('a', t.focused_pane_id), ('b', t.next_pane_id)] := by
  have hids : t.split_vertical.layout.pane_ids
      = [t.focused_pane_id, t.next_pane_id] := by
    simp [Tab.split_vertical, Layout.split_pane, Layout.pane_ids, hroot,
      Layout.split_node, LayoutNode.collect_pane_ids]
  have hp1 : t.split_vertical.panes t.focused_pane_id = some pn := by
    simp [Tab.split_vertical, insertPane, hne, hpane]
  have hp2 : t.split_vertical.panes t.next_pane_id
      = some (Pane.new_editor t.next_pane_id) := by
    simp [Tab.split_vertical, insertPane]
  unfold Tab.get_editor_panes_with_labels
  rw [hids]
  simp [List.filter, hp1, hp2, hkind, Pane.new_editor, List.enum,
    List.enumFrom]

/-- Witness for C8 at the freshly created Tab. -/
theorem split_vertical_labels_ab_witness :
    Tab.new.layout.root = .pane Tab.new.focused_pane_id
    ∧ Tab.new.panes Tab.new.focused_pane_id = some (Pane.new_editor 0)
    ∧ (Pane.new_editor 0).kind = .editor
    ∧ Tab.new.focused_pane_id ≠ Tab.new.next_pane_id
    ∧ Tab.new.split_vertical.get_editor_panes_with_labels
        = [('a', Tab.new.focused_pane_id), ('b', Tab.new.next_pane_id)] :=
  ⟨rfl, rfl, rfl, by decide,
   split_vertical_labels_ab Tab.new (Pane.new_editor 0) rfl rfl rfl (by decide)⟩

/-! ## Pane-id allocation (claim C9) -/

theorem focus_next_panes (t : Tab) : t.focus_next.panes = t.panes := by
  unfold Tab.focus_next
  split <;> rfl

theorem focus_next_next_pane_id (t : Tab) :
    t.focus_next.next_pane_id = t.next_pane_id := by
  unfold Tab.focus_next
  split <;> rfl

theorem insertPane_isSome {m : PaneMap} {idv : Nat} {p : Pane} (k : Nat)
    (h : ((insertPane m idv p) k).isSome) : k = idv ∨ (m k).isSome := by
  by_cases hk : k = idv
  · exact Or.inl hk
  · right; simpa [insertPane, hk] using h

theorem erasePane_isSome {m : PaneMap} {idv : Nat} (k : Nat)
    (h : ((erasePane m idv) k).isSome) : (m k).isSome := by
  by_cases hk : k = idv
  · simp [erasePane, hk] at h
  · simpa [erasePane, hk] using h

/-- C9.  The Tab allocator invariant (every live pane id is strictly
below `next_pane_id`) gives freshness — the next allocated id is not in
the pane map — and is preserved by `split_vertical`,
`split_horizontal`, `close_focused_pane` and `toggle_file_browser`;
the allocator never decreases (it advances by exactly one on each
allocation and is untouched by closes). -/
theorem pane_id_never_reused (t : Tab) (hinv : TabInv t) :
    (t.panes t.next_pane_id = none)
    ∧ (TabInv t.split_vertical
        ∧ t.split_vertical.next_pane_id = t.next_pane_id + 1)
    ∧ (TabInv t.split_horizontal
        ∧ t.split_horizontal.next_pane_id = t.next_pane_id + 1)
    ∧ (TabInv t.close_focused_pane.2
        ∧ t.close_focused_pane.2.next_pane_id = t.next_pane_id)
    ∧ (TabInv t.toggle_file_browser
        ∧ t.next_pane_id ≤ t.toggle_file_browser.next_pane_id) := by
  have hfresh : t.panes t.next_pane_id = none := by
    cases hp : t.panes t.next_pane_id with
    | none => rfl
    | some p =>
      have := hinv t.next_pane_id (by simp [hp])
      omega
  have hsplitv : TabInv t.split_vertical := by
    intro id h
    show id < t.next_pane_id + 1
    rcases insertPane_isSome id h with h1 | h1
    · omega
    · have := hinv id h1; omega
  have hsplith : TabInv t.split_horizontal := by
    intro id h
    show id < t.next_pane_id + 1
    rcases insertPane_isSome id h with h1 | h1
    · omega
    · have := hinv id h1; omega
  have hclose : TabInv t.close_focused_pane.2
      ∧ t.close_focused_pane.2.next_pane_id = t.next_pane_id := by
    have key : ∀ t1 : Tab, t1.panes = t.panes → t1.next_pane_id = t.next_pane_id →
        ∀ cId : Nat,
          TabInv { t1.focus_next with
              layout := (t1.focus_next.layout.remove_pane cId).1,
              panes := erasePane t1.focus_next.panes cId }
          ∧ ({ t1.focus_next with
              layout := (t1.focus_next.layout.remove_pane cId).1,
              panes := erasePane t1.focus_next.panes cId } : Tab).next_pane_id
            = t.next_pane_id := by
      intro t1 hp hn cId
      have hfp : t1.focus_next.panes = t.panes := by rw [focus_next_panes, hp]
      have hfn : t1.focus_next.next_pane_id = t.next_pane_id := by
        rw [focus_next_next_pane_id, hn]
      constructor
      · intro id h
        have h' : ((erasePane t1.focus_next.panes cId) id).isSome := h
        rw [hfp] at h'
        show id < t1.focus_next.next_pane_id
        rw [hfn]
        exact hinv id (erasePane_isSome id h')
      · exact hfn
    simp only [Tab.close_focused_pane]
    by_cases hlen : t.layout.pane_ids.length ≤ 1
    · rw [if_pos hlen]
      exact ⟨hinv, rfl⟩
    · rw [if_neg hlen]
      by_cases hfb : some t.focused_pane_id = t.file_browser_pane_id
      · rw [if_pos hfb]
        exact key { t with file_browser_pane_id := none } rfl rfl _
      · rw [if_neg hfb]
        exact key t rfl rfl _
  have htoggle : TabInv t.toggle_file_browser
      ∧ t.next_pane_id ≤ t.toggle_file_browser.next_pane_id := by
    have key : ∀ t1 : Tab, t1.panes = t.panes → t1.next_pane_id = t.next_pane_id →
        ∀ fbId : Nat,
          TabInv { t1 with
              layout := (t1.layout.remove_pane fbId).1,
              panes := erasePane t1.panes fbId,
              file_browser_pane_id := none }
          ∧ t.next_pane_id ≤ ({ t1 with
              layout := (t1.layout.remove_pane fbId).1,
              panes := erasePane t1.panes fbId,
              file_browser_pane_id := none } : Tab).next_pane_id := by
      intro t1 hp hn fbId
      constructor
      · intro id h
        have h' : ((erasePane t1.panes fbId) id).isSome := h
        rw [hp] at h'
        show id < t1.next_pane_id
        rw [hn]
        exact hinv id (erasePane_isSome id h')
      · show t.next_pane_id ≤ t1.next_pane_id
        exact le_of_eq hn.symm
    simp only [Tab.toggle_file_browser]
    cases hfb : t.file_browser_pane_id with
    | none =>
      simp only [hfb]
      constructor
      · intro id h
        show id < t.next_pane_id + 1
        rcases insertPane_isSome id h with h1 | h1
        · omega
        · have := hinv id h1
          omega
      · show t.next_pane_id ≤ t.next_pane_id + 1
        omega
    | some fbId =>
      simp only [hfb]
      by_cases hfoc : t.focused_pane_id = fbId
      · rw [if_pos hfoc]
        exact key t.focus_next (focus_next_panes t) (focus_next_next_pane_id t) fbId
      · rw [if_neg hfoc]
        exact key t rfl rfl fbId
  exact ⟨hfresh, ⟨hsplitv, rfl⟩, ⟨hsplith, rfl⟩, hclose, htoggle⟩

/-- Witness for C9 at the freshly created Tab. -/
theorem pane_id_never_reused_witness :
    TabInv Tab.new
    ∧ (Tab.new.panes Tab.new.next_pane_id = none)
    ∧ (TabInv Tab.new.split_vertical
        ∧ Tab.new.split_vertical.next_pane_id = Tab.new.next_pane_id + 1)
    ∧ (TabInv Tab.new.split_horizontal
        ∧ Tab.new.split_horizontal.next_pane_id = Tab.new.next_pane_id + 1)
    ∧ (TabInv Tab.new.close_focused_pane.2
        ∧ Tab.new.close_focused_pane.2.next_pane_id = Tab.new.next_pane_id)
    ∧ (TabInv Tab.new.toggle_file_browser
        ∧ Tab.new.next_pane_id ≤ Tab.new.toggle_file_browser.next_pane_id) := by
  have hinv : TabInv Tab.new := by
    intro id h
    by_cases hid : id = 0
    · simp [Tab.new, hid]
    · simp [Tab.new, insertPane, hid] at h
  exact And.intro hinv (pane_id_never_reused Tab.new hinv)

/-! ## `move_down` underflow safety (claim C10) -/

/-- C10.  `Cursor::move_down(line_count)` panics exactly when
`line_count = 0` (the `usize` subtraction `line_count - 1`
underflows); for `line_count ≥ 1` it sets the line to
`min (line + 1) (line_count - 1)`.  The dispatcher's `MoveDown`
handler (`execMoveDown`), which always passes the focused pane's
buffer line count, inherits the same condition. -/
theorem move_down_underflow_spec (c : Cursor) (lc : Nat) (p : Pane) :
    (c.move_down lc = none ↔ lc = 0)
    ∧ (1 ≤ lc → c.move_down lc = some ⟨min (c.line + 1) (lc - 1), c.col⟩)
    ∧ (execMoveDown p = none ↔ p.buffer.line_count = 0) := by
  refine ⟨?_, ?_, ?_⟩
  · by_cases h : lc = 0 <;> simp [Cursor.move_down, h]
  · intro h
    have h0 : lc ≠ 0 := by omega
    simp [Cursor.move_down, h0]
  · by_cases h : p.buffer.line_count = 0 <;>
      simp [execMoveDown, Cursor.move_down, h]

/-- Witness for C10: a cursor on line 7 of a 3-line buffer clamps to
line 2. -/
theorem move_down_underflow_spec_witness :
    1 ≤ 3
    ∧ Cursor.move_down ⟨7, 2⟩ 3 = some ⟨min (7 + 1) (3 - 1), 2⟩ :=
  ⟨by decide,
   (move_down_underflow_spec ⟨7, 2⟩ 3 (Pane.new_editor 0)).2.1 (by decide)⟩

end Lark
